import Mathlib

/-!
Verification of the resilience core of the `vault_bridge` service:
TTL cache (`src/services/cache.js`), circuit breaker
(`src/services/circuitBreaker.js`), upstream-error classifier
(`src/utils/errorClassifier.js`), the vault retrieval routes
(`src/routes/vault.js`) and the deep health probe (`src/routes/health.js`),
shallowly embedded in Lean.  Time (`Date.now()`) is passed explicitly as a
natural number of milliseconds; the mutable module state of each component is
passed and returned explicitly.
-/

namespace VaultBridge

/-! ## Error classifier (`src/utils/errorClassifier.js`)

The classifier tests the concatenation of the failure message, a space, and
the failure code (absent fields coerce to empty strings) against
an ordered list of case-insensitive regexes; first match wins.  Every pattern
in `ERROR_RULES` is an alternation of sequences built from literal characters,
one optional character (the `d?` in `timed?\s*out`), and `\s*` gaps, so we
embed exactly that fragment.  Case-insensitivity (`/i`) is embedded by
lowercasing the subject text once and writing the (all-ASCII) pattern literals
in lowercase. -/

/-- One token of a regex alternative: a literal character, an optional
character (`c?`), or a `\s*` gap. -/
inductive PTok where
  | lit (c : Char)
  | opt (c : Char)
  | ws
deriving DecidableEq

/-- JavaScript `\s` on the ASCII range (the patterns and subjects of interest
contain no non-ASCII whitespace). -/
def isWsChar (c : Char) : Bool :=
  c == ' ' || c == '\t' || c == '\n' || c == '\r' ||
  c == Char.ofNat 11 || c == Char.ofNat 12

/-- Helper for `\s*`: try the continuation `k` after consuming zero or more
whitespace characters. -/
def skipWsThen (k : List Char → Bool) : List Char → Bool
  | [] => k []
  | c :: s => k (c :: s) || (isWsChar c && skipWsThen k s)

/-- Does the alternative `p` match a prefix of `s`? -/
def matchesAt : List PTok → List Char → Bool
  | [], _ => true
  | .lit _ :: _, [] => false
  | .lit c :: p, c' :: s => c' == c && matchesAt p s
  | .opt _ :: p, [] => matchesAt p []
  | .opt c :: p, c' :: s => matchesAt p (c' :: s) || (c' == c && matchesAt p s)
  | .ws :: p, s => skipWsThen (matchesAt p) s

/-- Does the alternative `p` match anywhere in `s` (regex `test` without
anchors)? -/
def matchSub (p : List PTok) : List Char → Bool
  | [] => matchesAt p []
  | c :: s => matchesAt p (c :: s) || matchSub p s

/-- Does the alternation `alts` match anywhere in `s`? -/
def testPat (alts : List (List PTok)) (s : List Char) : Bool :=
  alts.any fun a => matchSub a s

/-- A run of literal pattern characters. -/
def lits (s : String) : List PTok := s.toList.map PTok.lit

/-- `/not\s*found|no\s*secret|does\s*not\s*exist/i` -/
def notFoundPattern : List (List PTok) :=
  [ lits "not" ++ [.ws] ++ lits "found"
  , lits "no" ++ [.ws] ++ lits "secret"
  , lits "does" ++ [.ws] ++ lits "not" ++ [.ws] ++ lits "exist" ]

/-- The `token\s*expired` alternative of the auth rule. -/
def tokenExpiredAlt : List PTok := lits "token" ++ [.ws] ++ lits "expired"

/-- `/unauthorized|token\s*expired|invalid\s*token|access\s*denied|authentication/i` -/
def authPattern : List (List PTok) :=
  [ lits "unauthorized"
  , tokenExpiredAlt
  , lits "invalid" ++ [.ws] ++ lits "token"
  , lits "access" ++ [.ws] ++ lits "denied"
  , lits "authentication" ]

/-- `/timeout|timed?\s*out|ETIMEDOUT|ECONNABORTED/i` -/
def timeoutPattern : List (List PTok) :=
  [ lits "timeout"
  , lits "time" ++ [.opt 'd', .ws] ++ lits "out"
  , lits "etimedout"
  , lits "econnaborted" ]

/-- `/ECONNREFUSED|ECONNRESET|EPIPE|network|socket|connect/i` -/
def connPattern : List (List PTok) :=
  [ lits "econnrefused", lits "econnreset", lits "epipe"
  , lits "network", lits "socket", lits "connect" ]

/-- `/rate\s*limit|too\s*many\s*requests|429/i` -/
def ratePattern : List (List PTok) :=
  [ lits "rate" ++ [.ws] ++ lits "limit"
  , lits "too" ++ [.ws] ++ lits "many" ++ [.ws] ++ lits "requests"
  , lits "429" ]

/-- `ErrorClassification`: the result shape of `classifyError`. -/
structure Classification where
  statusCode : Nat
  message : String
  isAuthError : Bool
deriving DecidableEq

/-- One entry of `ERROR_RULES`. -/
structure Rule where
  pattern : List (List PTok)
  statusCode : Nat
  message : String
  isAuthError : Bool

def notFoundRule : Rule := ⟨notFoundPattern, 404, "Secret not found.", false⟩
def authRule : Rule := ⟨authPattern, 502, "Upstream vault service unavailable.", true⟩
def timeoutRule : Rule := ⟨timeoutPattern, 502, "Upstream vault service unavailable.", false⟩
def connRule : Rule := ⟨connPattern, 502, "Upstream vault service unavailable.", false⟩
def rateRule : Rule := ⟨ratePattern, 502, "Upstream vault service unavailable.", false⟩

/-- The ordered rule table of `errorClassifier.js`. -/
def ERROR_RULES : List Rule :=
  [notFoundRule, authRule, timeoutRule, connRule, rateRule]

/-- Default classification when no rule matches. -/
def DEFAULT_CLASSIFICATION : Classification :=
  ⟨500, "Failed to retrieve secret from vault.", false⟩

/-- A JavaScript error as the classifier sees it: its `message` and `code`
text (absent fields coerce to the empty string in the source). -/
structure JsError where
  message : List Char
  code : List Char
deriving DecidableEq

/-- The subject text built by the classifier — failure message, a space,
failure code — lowercased once to realise the `/i` flag shared by every
rule. -/
def errorTextOf (e : JsError) : List Char :=
  (e.message ++ ' ' :: e.code).map Char.toLower

/-- `classifyError` from `errorClassifier.js`: first matching rule wins,
otherwise the default classification. -/
def classifyError (e : JsError) : Classification :=
  match ERROR_RULES.find? (fun r => testPat r.pattern (errorTextOf e)) with
  | some r => ⟨r.statusCode, r.message, r.isAuthError⟩
  | none => DEFAULT_CLASSIFICATION

/-! ## TTL cache (`src/services/cache.js`)

`createCache` keeps a native `Map` from keys to `{ value, expiresAt }` plus
hit/miss counters.  The `Map` is embedded as an association list whose update
operations mirror `Map.set` (replace-in-place or append) and `Map.delete`. -/

/-- A cache entry: `{ value, expiresAt }` with `expiresAt` in epoch ms. -/
structure CacheEntry (α : Type) where
  value : α
  expiresAt : Nat
deriving DecidableEq

/-- The mutable state of one cache instance: the backing `Map` and the
hit/miss counters. -/
structure CacheState (α : Type) where
  store : List (String × CacheEntry α)
  hits : Nat
  misses : Nat
deriving DecidableEq

/-- `Map.get`. -/
def mapLookup {β : Type} (k : String) : List (String × β) → Option β
  | [] => none
  | (k', v) :: rest => if k' = k then some v else mapLookup k rest

/-- `Map.set`: overwrite in place, or append a new entry. -/
def mapSet {β : Type} (k : String) (v : β) : List (String × β) → List (String × β)
  | [] => [(k, v)]
  | (k', v') :: rest => if k' = k then (k, v) :: rest else (k', v') :: mapSet k v rest

/-- `Map.delete` (keys are unique, so deleting the first occurrence suffices). -/
def mapDelete {β : Type} (k : String) : List (String × β) → List (String × β)
  | [] => []
  | (k', v') :: rest => if k' = k then rest else (k', v') :: mapDelete k rest

namespace Cache

/-- `get(key)`: miss on absent key; lazy eviction plus miss when
`Date.now() >= entry.expiresAt`; otherwise a hit returning the value. -/
def get {α : Type} (now : Nat) (key : String) (st : CacheState α) :
    Option α × CacheState α :=
  match mapLookup key st.store with
  | none => (none, { st with misses := st.misses + 1 })
  | some entry =>
    if entry.expiresAt ≤ now then
      (none, { st with store := mapDelete key st.store, misses := st.misses + 1 })
    else
      (some entry.value, { st with hits := st.hits + 1 })

/-- `set(key, value, ttlSeconds)`: stores `expiresAt = Date.now() + ttl*1000`,
where `ttl` falls back to the instance default when the argument is absent. -/
def set {α : Type} (now : Nat) (key : String) (value : α) (ttlSeconds : Option Nat)
    (defaultTtlSeconds : Nat) (st : CacheState α) : CacheState α :=
  let ttl := ttlSeconds.getD defaultTtlSeconds
  { st with store := mapSet key ⟨value, now + ttl * 1000⟩ st.store }

end Cache

/-! ## Circuit breaker (`src/services/circuitBreaker.js`) -/

/-- The three circuit states, the source strings `closed`, `open` and
`half-open`. -/
inductive BState where
  | closed
  | opened
  | halfOpen
deriving DecidableEq

/-- Construction options: `failureThreshold` and `cooldownMs`. -/
structure BreakerConfig where
  failureThreshold : Nat
  cooldownMs : Nat
deriving DecidableEq

/-- The mutable closure state of one breaker instance. -/
structure BreakerState where
  state : BState
  consecutiveFailures : Nat
  openedAt : Option Nat
deriving DecidableEq

/-- The state right after `createCircuitBreaker`. -/
def initialBreaker : BreakerState := ⟨.closed, 0, none⟩

namespace CircuitBreaker

/-- `getState()`: lazily transitions open → half-open once
`Date.now() - openedAt >= cooldownMs` (a `null` `openedAt` coerces to `0` in
the source's subtraction), returning the resolved state. -/
def getState (cfg : BreakerConfig) (now : Nat) (b : BreakerState) :
    BState × BreakerState :=
  if b.state = .opened ∧ (now : Int) - (b.openedAt.getD 0 : Nat) ≥ (cfg.cooldownMs : Int) then
    (.halfOpen, { b with state := .halfOpen })
  else
    (b.state, b)

/-- `allowRequest()`: true iff the resolved state is closed or half-open. -/
def allowRequest (cfg : BreakerConfig) (now : Nat) (b : BreakerState) :
    Bool × BreakerState :=
  let (s, b') := getState cfg now b
  (decide (s = .closed) || decide (s = .halfOpen), b')

/-- `recordSuccess()`: unconditionally resets failures, closes the circuit
and clears `openedAt`. -/
def recordSuccess (_b : BreakerState) : BreakerState := ⟨.closed, 0, none⟩

/-- `recordFailure()`: increments the failure count, re-opens from half-open,
and trips closed → open at the threshold.  Note that it reads the raw
`state` field — it does not call `getState()` first. -/
def recordFailure (cfg : BreakerConfig) (now : Nat) (b : BreakerState) :
    BreakerState :=
  let cf := b.consecutiveFailures + 1
  if b.state = .halfOpen then
    ⟨.opened, cf, some now⟩
  else if cf ≥ cfg.failureThreshold ∧ b.state = .closed then
    ⟨.opened, cf, some now⟩
  else
    { b with consecutiveFailures := cf }

/-- A sequence of `recordFailure()` calls at the given times, in order. -/
def recordFailures (cfg : BreakerConfig) (times : List Nat) (b : BreakerState) :
    BreakerState :=
  times.foldl (fun b t => recordFailure cfg t b) b

end CircuitBreaker

/-! ## Vault routes (`src/routes/vault.js`)

The handlers are modelled with the optional `cache` and `circuitBreaker`
dependencies present (as `buildApp` wires them in production).  The upstream
collaborator `client.secrets().get` is a parameter returning either a secret
or a thrown `JsError`; the fire-and-forget `attemptReauth`, logging and
metrics side effects do not touch the modelled state and are omitted. -/

/-- The `{ id, key, value }` object built from a successful upstream call. -/
structure Secret where
  id : String
  key : String
  value : String
deriving DecidableEq

/-- The visible outcome of the single-secret route: HTTP status, JSON body
(the secret or an error message), and the `X-Degraded-Mode` header. -/
structure Response where
  status : Nat
  secret : Option Secret
  errorMsg : Option String
  degraded : Bool
deriving DecidableEq

/-- `GET /vault/secret/:id` (after the UUID-validation middleware): readiness
check, cache lookup, breaker gate with stale-cache attempt, upstream call with
cache populate / breaker bookkeeping / error classification. -/
def handleGetSecret (cfg : BreakerConfig) (defaultTtl : Nat) (now : Nat)
    (ready : Bool) (secretId : String) (upstream : String → Except JsError Secret)
    (st : CacheState Secret) (b : BreakerState) :
    Response × CacheState Secret × BreakerState :=
  if ready = false then
    (⟨503, none, some "Vault client not ready.", false⟩, st, b)
  else
    let (cached, st1) := Cache.get now secretId st
    match cached with
    | some v => (⟨200, some v, none, false⟩, st1, b)
    | none =>
      let (allowed, b1) := CircuitBreaker.allowRequest cfg now b
      if allowed = false then
        let (stale, st2) := Cache.get now secretId st1
        match stale with
        | some v => (⟨200, some v, none, true⟩, st2, b1)
        | none => (⟨503, none, some "Upstream service temporarily unavailable.", false⟩, st2, b1)
      else
        match upstream secretId with
        | .ok secret =>
          let st2 := Cache.set now secretId secret none defaultTtl st1
          let b2 := CircuitBreaker.recordSuccess b1
          (⟨200, some secret, none, false⟩, st2, b2)
        | .error e =>
          let cls := classifyError e
          let b2 := CircuitBreaker.recordFailure cfg now b1
          (⟨cls.statusCode, none, some cls.message, false⟩, st1, b2)

/-- One record of the bulk route's `errors` array. -/
structure BulkError where
  id : String
  status : Nat
  error : String
deriving DecidableEq

/-- The per-identifier loop of `POST /vault/secrets`: cache check, breaker
check, upstream call; successes and failures are accumulated in order and one
item's failure never stops the loop. -/
def processBulk (cfg : BreakerConfig) (defaultTtl : Nat) (now : Nat)
    (upstream : String → Except JsError Secret) :
    List String → CacheState Secret → BreakerState →
    List Secret × List BulkError × CacheState Secret × BreakerState
  | [], st, b => ([], [], st, b)
  | sid :: rest, st, b =>
    match Cache.get now sid st with
    | (some v, st1) =>
      let (rs, es, st', b') := processBulk cfg defaultTtl now upstream rest st1 b
      (v :: rs, es, st', b')
    | (none, st1) =>
      match CircuitBreaker.allowRequest cfg now b with
      | (false, b1) =>
        let (rs, es, st', b') := processBulk cfg defaultTtl now upstream rest st1 b1
        (rs, ⟨sid, 503, "Upstream service temporarily unavailable."⟩ :: es, st', b')
      | (true, b1) =>
        match upstream sid with
        | .ok secret =>
          let st2 := Cache.set now sid secret none defaultTtl st1
          let b2 := CircuitBreaker.recordSuccess b1
          let (rs, es, st', b') := processBulk cfg defaultTtl now upstream rest st2 b2
          (secret :: rs, es, st', b')
        | .error e =>
          let cls := classifyError e
          let b2 := CircuitBreaker.recordFailure cfg now b1
          let (rs, es, st', b') := processBulk cfg defaultTtl now upstream rest st1 b2
          (rs, ⟨sid, cls.statusCode, cls.message⟩ :: es, st', b')

/-- `UUID_V4_REGEX` from `middleware/validateSecretId.js`:
`^[0-9a-f]{8}-[0-9a-f]{4}-4[0-9a-f]{3}-[89ab][0-9a-f]{3}-[0-9a-f]{12}$/i`,
checked position by position on the lowercased characters. -/
def isUuidV4 (s : String) : Bool :=
  let cs := s.toList.map Char.toLower
  cs.length == 36 &&
    (List.range 36).all fun i =>
      let c := cs.getD i ' '
      if i = 8 ∨ i = 13 ∨ i = 18 ∨ i = 23 then c == '-'
      else if i = 14 then c == '4'
      else if i = 19 then c == '8' || c == '9' || c == 'a' || c == 'b'
      else ('0' ≤ c && c ≤ '9') || ('a' ≤ c && c ≤ 'f')

/-- `MAX_BULK_IDS`. -/
def MAX_BULK_IDS : Nat := 50

/-- The visible outcome of the bulk route: HTTP status, the `secrets` and
`errors` arrays, the reported `invalidIds`, and the top-level error message
of a rejected request. -/
structure BulkResponse where
  status : Nat
  secrets : List Secret
  errors : List BulkError
  invalidIds : List String
  errorMsg : Option String
deriving DecidableEq

/-- `POST /vault/secrets`: readiness check, then validation (non-empty list,
maximum size, every id a UUID v4 — collecting all malformed ids), then the
per-item loop; the loop's outcome is always returned with status 200. -/
def handleBulk (cfg : BreakerConfig) (defaultTtl : Nat) (now : Nat)
    (ready : Bool) (ids : List String) (upstream : String → Except JsError Secret)
    (st : CacheState Secret) (b : BreakerState) :
    BulkResponse × CacheState Secret × BreakerState :=
  if ready = false then
    (⟨503, [], [], [], some "Vault client not ready."⟩, st, b)
  else if ids.isEmpty then
    (⟨400, [], [], [], some "Request body must contain a non-empty \"ids\" array."⟩, st, b)
  else if ids.length > MAX_BULK_IDS then
    (⟨400, [], [], [], some "Maximum 50 IDs per request."⟩, st, b)
  else
    let invalidIds := ids.filter fun id => !(isUuidV4 id)
    if invalidIds.length > 0 then
      (⟨400, [], [], invalidIds, some "Invalid secret ID format. Expected UUID v4."⟩, st, b)
    else
      let (rs, es, st', b') := processBulk cfg defaultTtl now upstream ids st b
      (⟨200, rs, es, [], none⟩, st', b')

/-! ## Deep health probe (`src/routes/health.js`) -/

/-- The overall status of the deep probe. -/
inductive HealthStatus where
  | ok
  | degraded
  | unavailable
deriving DecidableEq

/-- The resolved breaker state string of the probe: `getState()` when a
breaker is wired, the `unknown` marker (here `none`) otherwise. -/
def resolvedCbState (cfg : BreakerConfig) (now : Nat)
    (breaker : Option BreakerState) : Option BState :=
  breaker.map fun b => (CircuitBreaker.getState cfg now b).1

/-- `cacheWarm`: a cache is wired and `stats().size > 0` (the `Map`'s size,
counting unexpired-or-not-yet-checked entries). -/
def cacheWarmOf (cache : Option (CacheState Secret)) : Bool :=
  cache.isSome && decide (0 < (cache.map fun st => st.store.length).getD 0)

/-- `GET /health?deep=true`: the ordered status decision and the resulting
HTTP status code. -/
def deepProbe (cfg : BreakerConfig) (now : Nat) (ready : Bool)
    (cache : Option (CacheState Secret)) (breaker : Option BreakerState) :
    HealthStatus × Nat :=
  let cacheWarm := cacheWarmOf cache
  let cbState := resolvedCbState cfg now breaker
  let status : HealthStatus :=
    if ready = true ∧ cbState ≠ some .opened then .ok
    else if ready = false ∧ cacheWarm = true then .degraded
    else if cbState = some .opened ∧ cacheWarm = true then .degraded
    else .unavailable
  let statusCode : Nat := if status = .unavailable then 503 else 200
  (status, statusCode)


/-! ## Concrete scenario constants (used by counterexamples and witnesses) -/

/-- A valid UUID v4 identifier. -/
def u1 : String := "550e8400-e29b-41d4-a716-446655440000"

/-- A second valid UUID v4 identifier. -/
def u2 : String := "660e8400-e29b-41d4-a716-446655440001"

/-- A third valid UUID v4 identifier. -/
def u3 : String := "770e8400-e29b-41d4-a716-446655440002"

/-- A concrete secret for `u1`. -/
def sec1 : Secret := ⟨u1, "k", "v"⟩

/-- A cache whose only entry for `u1` has already expired at time 1000. -/
def stExp : CacheState Secret := ⟨[(u1, ⟨sec1, 500⟩)], 0, 0⟩

/-- A cache whose only entry for `u1` is still fresh at time 1000. -/
def stFresh : CacheState Secret := ⟨[(u1, ⟨sec1, 5000⟩)], 0, 0⟩

/-- A breaker that tripped at time 900 (still denying at 1000 under a 30 s
cooldown). -/
def bOpen : BreakerState := ⟨.opened, 5, some 900⟩

/-- The production default breaker options: threshold 5, cooldown 30000 ms. -/
def cfg5 : BreakerConfig := ⟨5, 30000⟩

/-- An upstream that fails for `u1` and succeeds for every other id. -/
def upFail1 : String → Except JsError Secret :=
  fun id => if id = u1 then .error ⟨"boom".toList, []⟩ else .ok ⟨id, "k", "v"⟩

/-- An upstream that fails for `u2` and succeeds for every other id. -/
def upFailMid : String → Except JsError Secret :=
  fun id => if id = u2 then .error ⟨"boom".toList, []⟩ else .ok ⟨id, "k", "v"⟩

instance : DecidableEq (Except JsError Secret) :=
  fun a b =>
    match a, b with
    | .ok x, .ok y =>
      if h : x = y then .isTrue (by rw [h])
      else .isFalse (by intro hc; injection hc; contradiction)
    | .error x, .error y =>
      if h : x = y then .isTrue (by rw [h])
      else .isFalse (by intro hc; injection hc; contradiction)
    | .ok _, .error _ => .isFalse (fun hc => Except.noConfusion hc)
    | .error _, .ok _ => .isFalse (fun hc => Except.noConfusion hc)

end VaultBridge

namespace VaultBridge

/-! ## Map-level lemmas -/

/-- Looking up the key just stored by `Map.set` returns the stored value. -/
theorem mapLookup_mapSet_self {β : Type} (k : String) (v : β) :
    ∀ s : List (String × β), mapLookup k (mapSet k v s) = some v := by
  intro s
  induction s with
  | nil => simp [mapSet, mapLookup]
  | cons h t ih =>
    obtain ⟨k', v'⟩ := h
    by_cases hk : k' = k
    · subst hk
      simp [mapSet, mapLookup]
    · simp [mapSet, mapLookup, hk, ih]

/-- `Map.set` on another key does not change a lookup. -/
theorem mapLookup_mapSet_ne {β : Type} (k k' : String) (v : β) (hk : k' ≠ k) :
    ∀ s : List (String × β), mapLookup k (mapSet k' v s) = mapLookup k s := by
  intro s
  induction s with
  | nil => simp [mapSet, mapLookup, hk]
  | cons h t ih =>
    obtain ⟨a, w⟩ := h
    by_cases ha : a = k'
    · subst ha
      simp [mapSet, mapLookup, hk, ih]
    · simp [mapSet, mapLookup, ha, ih]

/-- Deleting the key just stored by `Map.set` yields the same map as deleting
the key from the original. -/
theorem mapDelete_mapSet_self {β : Type} (k : String) (v : β) :
    ∀ s : List (String × β), mapDelete k (mapSet k v s) = mapDelete k s := by
  intro s
  induction s with
  | nil => simp [mapSet, mapDelete]
  | cons h t ih =>
    obtain ⟨a, w⟩ := h
    by_cases ha : a = k
    · subst ha
      simp [mapSet, mapDelete]
    · simp [mapSet, mapDelete, ha, ih]

/-- A key absent from a map stays absent after any `Map.delete`. -/
theorem mapLookup_mapDelete_none {β : Type} (k k' : String) :
    ∀ s : List (String × β), mapLookup k s = none →
      mapLookup k (mapDelete k' s) = none := by
  intro s
  induction s with
  | nil => simp [mapDelete]
  | cons h t ih =>
    obtain ⟨a, w⟩ := h
    intro hl
    by_cases hak : a = k
    · simp [mapLookup, hak] at hl
    · simp only [mapLookup, if_neg hak] at hl
      by_cases ha : a = k'
      · simpa [mapDelete, ha] using hl
      · simp [mapDelete, ha, mapLookup, hak, ih hl]

end VaultBridge

namespace VaultBridge

/-- Claim C5: for every `ttl ≥ 0`, a value stored by `set(key, value, ttl)`
at time `t0` (stored absolute expiry `t0 + ttl*1000` ms) is returned by
`get(key)` whenever the current time is strictly before the stored expiry,
and is a miss with the entry evicted from the store whenever the current time
is at or past it; with `ttl = 0` the expiry equals the set time, so the value
is never retrievable at any `now ≥ t0`. -/
theorem cache_ttl_property {α : Type} (st : CacheState α) (k : String) (v : α)
    (ttl d t0 now : Nat) :
    ((now < t0 + ttl * 1000 →
        (Cache.get now k (Cache.set t0 k v (some ttl) d st)).1 = some v) ∧
      (t0 + ttl * 1000 ≤ now →
        (Cache.get now k (Cache.set t0 k v (some ttl) d st)).1 = none ∧
        (Cache.get now k (Cache.set t0 k v (some ttl) d st)).2.store
          = mapDelete k st.store)) ∧
    (ttl = 0 → t0 ≤ now →
      (Cache.get now k (Cache.set t0 k v (some ttl) d st)).1 = none) := by
  have hset : (Cache.set t0 k v (some ttl) d st).store
      = mapSet k ⟨v, t0 + ttl * 1000⟩ st.store := by
    simp [Cache.set]
  constructor
  · constructor
    · intro hfresh
      simp [Cache.get, hset, mapLookup_mapSet_self, Nat.not_le.mpr hfresh]
    · intro hstale
      simp [Cache.get, hset, mapLookup_mapSet_self, hstale, mapDelete_mapSet_self,
        Cache.set]
  · intro h0 hle
    subst h0
    simp [Cache.get, hset, mapLookup_mapSet_self, hle]

/-- Witness for `cache_ttl_property`: `set("k","v",0)` at time 5 and an
immediate `get("k")` at time 5 is a miss, evicting the entry. -/
theorem cache_ttl_property_witness :
    (5 + 0 * 1000 ≤ 5) ∧
    ((Cache.get 5 "k" (Cache.set 5 "k" "v" (some 0) 60 (⟨[], 0, 0⟩ : CacheState String))).1 = none ∧
      (Cache.get 5 "k" (Cache.set 5 "k" "v" (some 0) 60 (⟨[], 0, 0⟩ : CacheState String))).2.store
        = mapDelete "k" (⟨[], 0, 0⟩ : CacheState String).store) :=
  ⟨by decide,
    (cache_ttl_property (⟨[], 0, 0⟩ : CacheState String) "k" "v" 0 60 5 5).1.2 (by decide)⟩

end VaultBridge

namespace VaultBridge

/-- While below the threshold, `recordFailure()` from a closed state only
counts: after `ts.length` further failures starting at `j` consecutive
failures with `j + ts.length < failureThreshold`, the breaker is still closed
with the failures added up and `openedAt` untouched. -/
theorem recordFailures_closed_below (cfg : BreakerConfig) :
    ∀ (ts : List Nat) (j : Nat) (oa : Option Nat),
      j + ts.length < cfg.failureThreshold →
      CircuitBreaker.recordFailures cfg ts ⟨.closed, j, oa⟩
        = ⟨.closed, j + ts.length, oa⟩ := by
  intro ts
  induction ts with
  | nil => intro j oa _; simp [CircuitBreaker.recordFailures]
  | cons t ts ih =>
    intro j oa h
    have hlen : j + (ts.length + 1) < cfg.failureThreshold := by
      simpa [List.length_cons] using h
    have hlt : ¬ cfg.failureThreshold ≤ j + 1 := by omega
    have hstep : CircuitBreaker.recordFailure cfg t ⟨.closed, j, oa⟩
        = ⟨.closed, j + 1, oa⟩ := by
      simp [CircuitBreaker.recordFailure, hlt]
    have := ih (j + 1) oa (by omega)
    calc CircuitBreaker.recordFailures cfg (t :: ts) ⟨.closed, j, oa⟩
        = CircuitBreaker.recordFailures cfg ts
            (CircuitBreaker.recordFailure cfg t ⟨.closed, j, oa⟩) := by
          simp [CircuitBreaker.recordFailures]
      _ = ⟨.closed, (j + 1) + ts.length, oa⟩ := by rw [hstep]; exact this
      _ = ⟨.closed, j + (t :: ts).length, oa⟩ := by
          simp only [List.length_cons]; ring_nf

/-- Once the accumulated failures reach the threshold, the last
`recordFailure()` of the sequence trips the breaker open. -/
theorem recordFailures_trip (cfg : BreakerConfig) :
    ∀ (ts : List Nat) (j : Nat) (oa : Option Nat),
      j + ts.length = cfg.failureThreshold → ts ≠ [] →
      (CircuitBreaker.recordFailures cfg ts ⟨.closed, j, oa⟩).state = .opened := by
  intro ts
  induction ts with
  | nil => intro j oa _ hne; exact absurd rfl hne
  | cons t ts ih =>
    intro j oa h _
    cases ts with
    | nil =>
      have hge : cfg.failureThreshold ≤ j + 1 := by
        simp only [List.length_cons, List.length_nil] at h
        omega
      simp [CircuitBreaker.recordFailures, CircuitBreaker.recordFailure, hge]
    | cons t' ts' =>
      have hlen : j + (ts'.length + 2) = cfg.failureThreshold := by
        simpa [List.length_cons] using h
      have hlt : ¬ cfg.failureThreshold ≤ j + 1 := by omega
      have hstep : CircuitBreaker.recordFailure cfg t ⟨.closed, j, oa⟩
          = ⟨.closed, j + 1, oa⟩ := by
        simp [CircuitBreaker.recordFailure, hlt]
      have hrec := ih (j + 1) oa (by simp only [List.length_cons]; omega) (by simp)
      calc (CircuitBreaker.recordFailures cfg (t :: t' :: ts') ⟨.closed, j, oa⟩).state
          = (CircuitBreaker.recordFailures cfg (t' :: ts')
              (CircuitBreaker.recordFailure cfg t ⟨.closed, j, oa⟩)).state := by
            simp [CircuitBreaker.recordFailures]
        _ = .opened := by rw [hstep]; exact hrec

/-- Claim C6: with `failureThreshold = N ≥ 1`, a fresh breaker is open after
exactly `N` consecutive `recordFailure()` calls (at arbitrary times) and
still closed after `N − 1` of them. -/
theorem breaker_threshold_property (cfg : BreakerConfig) (ts ts' : List Nat)
    (h1 : 1 ≤ cfg.failureThreshold)
    (hts : ts.length = cfg.failureThreshold)
    (hts' : ts'.length + 1 = cfg.failureThreshold) :
    (CircuitBreaker.recordFailures cfg ts initialBreaker).state = .opened ∧
    (CircuitBreaker.recordFailures cfg ts' initialBreaker).state = .closed := by
  constructor
  · have hne : ts ≠ [] := by
      intro hnil
      rw [hnil] at hts
      simp at hts
      omega
    exact recordFailures_trip cfg ts 0 none (by omega) hne
  · have := recordFailures_closed_below cfg ts' 0 none (by omega)
    rw [show initialBreaker = (⟨.closed, 0, none⟩ : BreakerState) from rfl, this]

/-- Witness for `breaker_threshold_property` at `failureThreshold = 2`:
two failures trip the breaker, one does not. -/
theorem breaker_threshold_property_witness :
    (1 ≤ (2 : Nat)) ∧
    (CircuitBreaker.recordFailures ⟨2, 30000⟩ [0, 5] initialBreaker).state = .opened ∧
    (CircuitBreaker.recordFailures ⟨2, 30000⟩ [0] initialBreaker).state = .closed :=
  ⟨by decide, breaker_threshold_property ⟨2, 30000⟩ [0, 5] [0] (by decide) (by decide) (by decide)⟩

/-- Counterexample to claim C2: with `failureThreshold = 1` and
`cooldownMs = 10`, a failure at time 0 opens the breaker with
`openedAt = 0`; at time 10 the cooldown has elapsed (a `getState()` call
would report half-open), yet a bare `recordFailure()` at time 10 — with no
intervening `getState()`/`allowRequest()` — leaves the breaker open with
`openedAt = 0`, not `openedAt = 10` as the claim predicts: `recordFailure`
reads the raw state and performs no lazy open → half-open resolution. -/
theorem recordFailure_no_lazy_resolution_cex :
    CircuitBreaker.recordFailure ⟨1, 10⟩ 0 initialBreaker = ⟨.opened, 1, some 0⟩ ∧
    (CircuitBreaker.getState ⟨1, 10⟩ 10 ⟨.opened, 1, some 0⟩).1 = .halfOpen ∧
    CircuitBreaker.recordFailure ⟨1, 10⟩ 10 ⟨.opened, 1, some 0⟩ = ⟨.opened, 2, some 0⟩ ∧
    (some (0 : Nat) ≠ some (10 : Nat)) := by
  refine ⟨by decide, by decide, by decide, by decide⟩

/-- Claim C2 as amended: `recordFailure()` on a breaker whose raw state is
open — even when the cooldown has already elapsed — leaves it open with
`openedAt` unchanged and merely increments the failure count; the lazy
open → half-open transition happens only inside `getState()` (and hence
`allowRequest()`/`stats()`), which `recordFailure` does not call. -/
theorem recordFailure_open_unchanged (cfg : BreakerConfig) (now : Nat)
    (b : BreakerState) (h : b.state = .opened) :
    CircuitBreaker.recordFailure cfg now b
      = ⟨.opened, b.consecutiveFailures + 1, b.openedAt⟩ := by
  have h1 : ¬(b.state = BState.halfOpen) := by rw [h]; intro hc; cases hc
  have h2 : ¬(b.consecutiveFailures + 1 ≥ cfg.failureThreshold ∧ b.state = BState.closed) := by
    rintro ⟨-, hc⟩
    rw [h] at hc
    cases hc
  simp only [CircuitBreaker.recordFailure, if_neg h1, if_neg h2]
  cases b with
  | mk s cf oa => simp_all

/-- Witness for `recordFailure_open_unchanged`: the concrete open breaker of
the counterexample scenario. -/
theorem recordFailure_open_unchanged_witness :
    ((⟨.opened, 1, some 0⟩ : BreakerState).state = .opened) ∧
    CircuitBreaker.recordFailure ⟨1, 10⟩ 10 ⟨.opened, 1, some 0⟩ = ⟨.opened, 2, some 0⟩ :=
  ⟨rfl, recordFailure_open_unchanged ⟨1, 10⟩ 10 ⟨.opened, 1, some 0⟩ rfl⟩

/-- Claim C9: `recordSuccess()` in any state — including open before the
cooldown has elapsed — leaves the breaker closed with zero consecutive
failures and `openedAt = null`, so a subsequent `getState()` reports closed
(never half-open). -/
theorem recordSuccess_closes (cfg : BreakerConfig) (now : Nat) (b : BreakerState) :
    CircuitBreaker.recordSuccess b = ⟨.closed, 0, none⟩ ∧
    (CircuitBreaker.getState cfg now (CircuitBreaker.recordSuccess b)).1 = .closed := by
  refine ⟨rfl, ?_⟩
  simp [CircuitBreaker.recordSuccess, CircuitBreaker.getState]

end VaultBridge

namespace VaultBridge

/-- Claim C7: the deep probe's overall status follows the ordered decision
table — session ready and resolved breaker state not open gives ok;
otherwise session not ready with a warm cache gives degraded; otherwise
breaker open with a warm cache gives degraded; otherwise unavailable — and
the HTTP status code is 503 exactly for unavailable and 200 exactly for
ok/degraded. -/
theorem deep_health_decision (cfg : BreakerConfig) (now : Nat) (ready : Bool)
    (cache : Option (CacheState Secret)) (breaker : Option BreakerState) :
    ((deepProbe cfg now ready cache breaker).1 = .ok ↔
      (ready = true ∧ resolvedCbState cfg now breaker ≠ some .opened)) ∧
    ((deepProbe cfg now ready cache breaker).1 = .degraded ↔
      (¬(ready = true ∧ resolvedCbState cfg now breaker ≠ some .opened) ∧
        ((ready = false ∧ cacheWarmOf cache = true) ∨
          (resolvedCbState cfg now breaker = some .opened ∧ cacheWarmOf cache = true)))) ∧
    ((deepProbe cfg now ready cache breaker).1 = .unavailable ↔
      (¬(ready = true ∧ resolvedCbState cfg now breaker ≠ some .opened) ∧
        ¬(ready = false ∧ cacheWarmOf cache = true) ∧
        ¬(resolvedCbState cfg now breaker = some .opened ∧ cacheWarmOf cache = true))) ∧
    ((deepProbe cfg now ready cache breaker).2 = 503 ↔
      (deepProbe cfg now ready cache breaker).1 = .unavailable) ∧
    ((deepProbe cfg now ready cache breaker).2 = 200 ↔
      ((deepProbe cfg now ready cache breaker).1 = .ok ∨
        (deepProbe cfg now ready cache breaker).1 = .degraded)) := by
  generalize hw : cacheWarmOf cache = w
  generalize hs : resolvedCbState cfg now breaker = s0
  unfold deepProbe
  rw [hw, hs]
  cases ready <;> cases w <;> rcases s0 with _ | st <;> try cases st
  all_goals decide

end VaultBridge

namespace VaultBridge

/-- If the continuation succeeds directly, `skipWsThen` succeeds (zero
whitespace consumed). -/
theorem skipWsThen_of_k (k : List Char → Bool) :
    ∀ s : List Char, k s = true → skipWsThen k s = true := by
  intro s h
  cases s with
  | nil => simpa [skipWsThen] using h
  | cons c t => simp [skipWsThen, h]

/-- `skipWsThen` is stable under extending the subject on the right, given
the continuations are related the same way. -/
theorem skipWsThen_append (k k' : List Char → Bool) (t : List Char)
    (hk : ∀ u : List Char, k u = true → k' (u ++ t) = true) :
    ∀ s : List Char, skipWsThen k s = true → skipWsThen k' (s ++ t) = true := by
  intro s
  induction s with
  | nil =>
    intro h
    simp only [skipWsThen] at h
    exact skipWsThen_of_k k' t (hk [] h)
  | cons c s ih =>
    intro h
    have h' : k (c :: s) = true ∨ (isWsChar c = true ∧ skipWsThen k s = true) := by
      simpa [skipWsThen] using h
    rcases h' with h1 | ⟨hws, hsk⟩
    · exact skipWsThen_of_k k' ((c :: s) ++ t) (hk (c :: s) h1)
    · have := ih hsk
      simp [skipWsThen, hws, this]

/-- A prefix match survives extending the subject on the right. -/
theorem matchesAt_append :
    ∀ (p : List PTok) (s t : List Char),
      matchesAt p s = true → matchesAt p (s ++ t) = true := by
  intro p
  induction p with
  | nil => intro s t _; simp [matchesAt]
  | cons tok p ih =>
    intro s t h
    cases tok with
    | lit c =>
      cases s with
      | nil => simp [matchesAt] at h
      | cons c' s =>
        have h' : (c' == c) = true ∧ matchesAt p s = true := by
          simpa [matchesAt] using h
        obtain ⟨hc, hm⟩ := h'
        simp [matchesAt, hc, ih s t hm]
    | opt c =>
      cases s with
      | nil =>
        simp only [matchesAt] at h
        cases t with
        | nil => simpa [matchesAt] using h
        | cons c'' t' =>
          simp [matchesAt]
          exact Or.inl (by simpa using ih [] (c'' :: t') h)
      | cons c' s =>
        have h' : matchesAt p (c' :: s) = true ∨ ((c' == c) = true ∧ matchesAt p s = true) := by
          simpa [matchesAt] using h
        rcases h' with h1 | ⟨hc, hm⟩
        · simp [matchesAt]
          exact Or.inl (by simpa using ih (c' :: s) t h1)
        · simp [matchesAt]
          exact Or.inr ⟨by simpa using hc, ih s t hm⟩
    | ws =>
      simp only [matchesAt] at h ⊢
      exact skipWsThen_append (matchesAt p) (matchesAt p) t (fun u hu => ih u t hu) s h
end VaultBridge

namespace VaultBridge

/-- An unanchored match is found from any prefix match of a suffix. -/
theorem matchSub_of_suffix (p : List PTok) :
    ∀ (x y : List Char), matchesAt p y = true → matchSub p (x ++ y) = true := by
  intro x
  induction x with
  | nil =>
    intro y h
    cases y with
    | nil => simpa [matchSub] using h
    | cons c s => simp [matchSub, h]
  | cons c x ih =>
    intro y h
    simp [matchSub, ih y h]

/-- A run of literal pattern characters consumes exactly the identical run of
subject characters. -/
theorem matchesAt_lits_prefix (cs : List Char) :
    ∀ (p : List PTok) (s : List Char),
      matchesAt p s = true → matchesAt (cs.map PTok.lit ++ p) (cs ++ s) = true := by
  induction cs with
  | nil => intro p s h; simpa using h
  | cons c cs ih =>
    intro p s h
    simp [matchesAt, ih p s h]

/-- `skipWsThen` consumes any leading run of whitespace characters before
running its continuation. -/
theorem skipWsThen_ws_prefix (k : List Char → Bool) :
    ∀ (w s : List Char), (∀ c ∈ w, isWsChar c = true) → k s = true →
      skipWsThen k (w ++ s) = true := by
  intro w
  induction w with
  | nil =>
    intro s _ hk
    simpa using skipWsThen_of_k k s hk
  | cons c w ih =>
    intro s hw hk
    have hc : isWsChar c = true := hw c (List.mem_cons_self c w)
    have hrest := ih s (fun d hd => hw d (List.mem_cons_of_mem c hd)) hk
    simp [skipWsThen, hc, hrest]

/-- The `token\s*expired` alternative matches `token`, any run of
whitespace characters (possibly empty), then `expired`, at the start of the
subject. -/
theorem matchesAt_token_expired (w y : List Char)
    (hw : ∀ c ∈ w, isWsChar c = true) :
    matchesAt tokenExpiredAlt
      ("token".toList ++ (w ++ ("expired".toList ++ y))) = true := by
  have h1 : matchesAt (("expired".toList).map PTok.lit ++ []) ("expired".toList ++ y) = true :=
    matchesAt_lits_prefix "expired".toList [] y (by simp [matchesAt])
  have h1e : matchesAt (lits "expired") ("expired".toList ++ y) = true := by
    simpa [lits] using h1
  have h2 : matchesAt (.ws :: lits "expired") (w ++ ("expired".toList ++ y)) = true := by
    simp only [matchesAt]
    exact skipWsThen_ws_prefix (matchesAt (lits "expired")) w ("expired".toList ++ y) hw h1e
  have h3 := matchesAt_lits_prefix "token".toList (.ws :: lits "expired")
    (w ++ ("expired".toList ++ y)) h2
  simpa [tokenExpiredAlt, lits, List.append_assoc] using h3

/-- If the lowercased subject contains `token`, a possibly-empty whitespace
gap, then `expired` anywhere, the auth rule's pattern matches it. -/
theorem testPat_auth_of_token_expired (t : List Char)
    (h : ∃ x w y, t = x ++ ("token".toList ++ (w ++ ("expired".toList ++ y))) ∧
      ∀ c ∈ w, isWsChar c = true) :
    testPat authPattern t = true := by
  obtain ⟨x, w, y, rfl, hw⟩ := h
  have h2 := matchesAt_token_expired w y hw
  have h3 := matchSub_of_suffix tokenExpiredAlt x
    ("token".toList ++ (w ++ ("expired".toList ++ y))) h2
  simp [testPat, authPattern]
  exact Or.inr (Or.inl h3)

/-- Counterexample to claim C3: the failure message `expired token` contains
the spec's phrase "expired token" verbatim and matches none of the not-found
patterns, yet `classifyError` returns the 500 default — not 502 with
`isAuthError = true` — because the auth rule's regex reads `token\s*expired`
(token before expired), which `expired token` does not match. -/
theorem classify_expired_token_cex :
    (∃ x y, errorTextOf ⟨"expired token".toList, []⟩
        = x ++ ("expired token".toList ++ y)) ∧
    testPat notFoundPattern (errorTextOf ⟨"expired token".toList, []⟩) = false ∧
    classifyError ⟨"expired token".toList, []⟩ = DEFAULT_CLASSIFICATION ∧
    (classifyError ⟨"expired token".toList, []⟩).statusCode = 500 ∧
    (classifyError ⟨"expired token".toList, []⟩).isAuthError = false :=
  ⟨⟨[], " ".toList, by decide⟩, by decide, by decide, by decide, by decide⟩

/-- Claim C3 as amended: every upstream failure whose message contains the
word "token", a possibly-empty whitespace gap, then "expired"
(case-insensitively, the regex `token\s*expired` — not "expired token") and
which matches none of the not-found patterns of the first rule is classified
502 with the generic upstream-unavailable message and `isAuthError = true`. -/
theorem classify_token_expired (e : JsError)
    (hmsg : ∃ x w y, e.message.map Char.toLower
        = x ++ ("token".toList ++ (w ++ ("expired".toList ++ y))) ∧
      ∀ c ∈ w, isWsChar c = true)
    (hnf : testPat notFoundPattern (errorTextOf e) = false) :
    classifyError e = ⟨502, "Upstream vault service unavailable.", true⟩ := by
  have htext : ∃ x w y, errorTextOf e
      = x ++ ("token".toList ++ (w ++ ("expired".toList ++ y))) ∧
      ∀ c ∈ w, isWsChar c = true := by
    obtain ⟨x, w, y, hx, hw⟩ := hmsg
    refine ⟨x, w, y ++ (' ' :: e.code).map Char.toLower, ?_, hw⟩
    have herr : errorTextOf e = e.message.map Char.toLower ++ (' ' :: e.code).map Char.toLower := by
      simp [errorTextOf]
    rw [herr, hx]
    simp
  have hauth := testPat_auth_of_token_expired (errorTextOf e) htext
  have hfind : ERROR_RULES.find? (fun r => testPat r.pattern (errorTextOf e))
      = some authRule := by
    rw [ERROR_RULES]
    rw [List.find?_cons_of_neg, List.find?_cons_of_pos]
    · simpa [authRule] using hauth
    · simpa [notFoundRule] using hnf
  simp [classifyError, hfind, authRule]

/-- Witness for `classify_token_expired`: the message `Token expired` (the
repository's own test input; a one-space gap) is classified 502/auth. -/
theorem classify_token_expired_witness :
    (∃ x w y, ("Token expired".toList : List Char).map Char.toLower
        = x ++ ("token".toList ++ (w ++ ("expired".toList ++ y))) ∧
      ∀ c ∈ w, isWsChar c = true) ∧
    testPat notFoundPattern (errorTextOf ⟨"Token expired".toList, []⟩) = false ∧
    classifyError ⟨"Token expired".toList, []⟩
      = ⟨502, "Upstream vault service unavailable.", true⟩ :=
  ⟨⟨[], [' '], [], by decide, by decide⟩, by decide,
    classify_token_expired ⟨"Token expired".toList, []⟩
      ⟨[], [' '], [], by decide, by decide⟩ (by decide)⟩

end VaultBridge

namespace VaultBridge

/-- Claim C8: for every error input, the message returned by `classifyError`
is one of the three fixed strings of the rule table and the default
classification — no text from the original error is carried into it.  (The
full classification is likewise drawn from the fixed table, so two errors
matched by the same rule get byte-identical messages.) -/
theorem classify_message_opaque (e : JsError) :
    (classifyError e).message = "Secret not found." ∨
    (classifyError e).message = "Upstream vault service unavailable." ∨
    (classifyError e).message = "Failed to retrieve secret from vault." := by
  rcases hfind : ERROR_RULES.find? (fun r => testPat r.pattern (errorTextOf e)) with
    _ | r
  · right; right
    simp [classifyError, hfind, DEFAULT_CLASSIFICATION]
  · have hr : r ∈ ERROR_RULES := List.mem_of_find?_eq_some hfind
    have hmsg : (classifyError e).message = r.message := by
      simp [classifyError, hfind]
    simp only [ERROR_RULES, List.mem_cons, List.not_mem_nil, or_false] at hr
    rcases hr with rfl | rfl | rfl | rfl | rfl
    · left; rw [hmsg]; rfl
    · right; left; rw [hmsg]; rfl
    · right; left; rw [hmsg]; rfl
    · right; left; rw [hmsg]; rfl
    · right; left; rw [hmsg]; rfl

/-- Claim C10: classification is invariant under letter case of the failure
text — errors whose message and code agree up to character case are
classified identically, because every rule is matched case-insensitively. -/
theorem classify_case_invariant (e e' : JsError)
    (hm : e.message.map Char.toLower = e'.message.map Char.toLower)
    (hc : e.code.map Char.toLower = e'.code.map Char.toLower) :
    classifyError e = classifyError e' := by
  have htext : errorTextOf e = errorTextOf e' := by
    simp only [errorTextOf, List.map_append, List.map_cons, hm, hc]
  simp only [classifyError, htext]

/-- Witness for `classify_case_invariant`: `NOT FOUND` and `not found` get
the same classification. -/
theorem classify_case_invariant_witness :
    (("NOT FOUND".toList : List Char).map Char.toLower
        = ("not found".toList : List Char).map Char.toLower) ∧
    (([] : List Char).map Char.toLower = ([] : List Char).map Char.toLower) ∧
    classifyError ⟨"NOT FOUND".toList, []⟩ = classifyError ⟨"not found".toList, []⟩ :=
  ⟨by decide, by decide,
    classify_case_invariant ⟨"NOT FOUND".toList, []⟩ ⟨"not found".toList, []⟩
      (by decide) (by decide)⟩

end VaultBridge

namespace VaultBridge

/-- Claim C1 evaluated on the code: at time 1000 with the session ready and
the breaker denying (`allowRequest()` false), a cache that holds an entry
for the requested id whose expiry has passed yields the 503 outcome — not
the claimed degraded 200 — because the initial `cache.get` evicts the
expired entry and the "stale" read is the same TTL-enforcing `get`; and a
cache holding a fresh entry yields a 200 from the initial cache-hit branch
with no `X-Degraded-Mode` marker, without consulting the breaker. -/
theorem stale_serve_denied_eval :
    (CircuitBreaker.allowRequest cfg5 1000 bOpen).1 = false ∧
    mapLookup u1 stExp.store = some ⟨sec1, 500⟩ ∧
    (handleGetSecret cfg5 60 1000 true u1 (fun _ => .error ⟨"x".toList, []⟩) stExp bOpen).1
      = ⟨503, none, some "Upstream service temporarily unavailable.", false⟩ ∧
    mapLookup u1 stFresh.store = some ⟨sec1, 5000⟩ ∧
    (handleGetSecret cfg5 60 1000 true u1 (fun _ => .error ⟨"x".toList, []⟩) stFresh bOpen).1
      = ⟨200, some sec1, none, false⟩ := by
  refine ⟨by decide, by decide, by decide, by decide, by decide⟩

end VaultBridge

namespace VaultBridge

/-- `allowRequest()` on a breaker whose raw state is closed allows the
request and leaves the breaker unchanged. -/
theorem allowRequest_closed (cfg : BreakerConfig) (now : Nat) (b : BreakerState)
    (hb : b.state = .closed) :
    CircuitBreaker.allowRequest cfg now b = (true, b) := by
  simp [CircuitBreaker.allowRequest, CircuitBreaker.getState, hb]

/-- `get` on a key that is absent is a miss that only bumps the miss
counter. -/
theorem cacheGet_of_lookup_none {α : Type} (now : Nat) (k : String)
    (st : CacheState α) (h : mapLookup k st.store = none) :
    Cache.get now k st = (none, { st with misses := st.misses + 1 }) := by
  simp [Cache.get, h]

/-- `get` either leaves the store unchanged or evicts exactly its own key. -/
theorem cacheGet_store_cases {α : Type} (now : Nat) (k : String)
    (st : CacheState α) :
    (Cache.get now k st).2.store = st.store ∨
    (Cache.get now k st).2.store = mapDelete k st.store := by
  rcases hl : mapLookup k st.store with _ | entry
  · left; simp [Cache.get, hl]
  · by_cases he : entry.expiresAt ≤ now
    · right; simp [Cache.get, hl, he]
    · left; simp [Cache.get, hl, he]

/-- A key absent from the store stays absent across any `get` (which can only
evict). -/
theorem cacheGet_preserves_none {α : Type} (now : Nat) (k k' : String)
    (st : CacheState α) (h : mapLookup k st.store = none) :
    mapLookup k (Cache.get now k' st).2.store = none := by
  rcases cacheGet_store_cases now k' st with hc | hc
  · rw [hc]; exact h
  · rw [hc]; exact mapLookup_mapDelete_none k k' st.store h

/-- A bulk run over identifiers whose upstream calls all succeed produces no
error records and one success per identifier (the breaker starting closed is
never tripped: successes only reset it). -/
theorem processBulk_all_ok (cfg : BreakerConfig) (d now : Nat)
    (up : String → Except JsError Secret) :
    ∀ (ids : List String) (st : CacheState Secret) (b : BreakerState),
      b.state = .closed →
      (∀ id ∈ ids, ∃ s, up id = .ok s) →
      ∃ rs st' b', processBulk cfg d now up ids st b = (rs, [], st', b') ∧
        rs.length = ids.length := by
  intro ids
  induction ids with
  | nil => intro st b _ _; exact ⟨[], st, b, rfl, rfl⟩
  | cons sid rest ih =>
    intro st b hb hok
    obtain ⟨sv, hsv⟩ := hok sid (List.mem_cons_self sid rest)
    have hokr : ∀ id ∈ rest, ∃ s, up id = .ok s :=
      fun id hid => hok id (List.mem_cons_of_mem sid hid)
    rcases hget : Cache.get now sid st with ⟨o, st1⟩
    cases o with
    | some v =>
      obtain ⟨rs, st', b', hrec, hlen⟩ := ih st1 b hb hokr
      refine ⟨v :: rs, st', b', ?_, by simp [hlen]⟩
      simp [processBulk, hget, hrec]
    | none =>
      have hallow := allowRequest_closed cfg now b hb
      obtain ⟨rs, st', b', hrec, hlen⟩ :=
        ih (Cache.set now sid sv none d st1) ⟨.closed, 0, none⟩ rfl hokr
      refine ⟨sv :: rs, st', b', ?_, by simp [hlen]⟩
      simp [processBulk, hget, hallow, hsv, CircuitBreaker.recordSuccess, hrec]

end VaultBridge

namespace VaultBridge

/-- A bulk run in which exactly one identifier `fid` occurs once, is not
cached, and is the only one whose upstream call fails — starting from a
closed breaker with no accumulated failures and a threshold of at least 2 —
yields exactly one error record (for `fid`, carrying its classification) and
one success per remaining identifier. -/
theorem processBulk_single_failure (cfg : BreakerConfig) (d now : Nat)
    (up : String → Except JsError Secret) (fid : String) (err : JsError)
    (hup : up fid = .error err) (hthr : 2 ≤ cfg.failureThreshold) :
    ∀ (ids : List String) (st : CacheState Secret) (b : BreakerState),
      b.state = .closed → b.consecutiveFailures = 0 →
      ids.count fid = 1 → mapLookup fid st.store = none →
      (∀ id ∈ ids, id ≠ fid → ∃ s, up id = .ok s) →
      ∃ rs st' b', processBulk cfg d now up ids st b
          = (rs, [⟨fid, (classifyError err).statusCode, (classifyError err).message⟩], st', b') ∧
        rs.length + 1 = ids.length := by
  intro ids
  induction ids with
  | nil => intro st b _ _ hcount _ _; simp at hcount
  | cons sid rest ih =>
    intro st b hb hb0 hcount hfc hok
    by_cases hsid : sid = fid
    · subst hsid
      have hcr : rest.count sid = 0 := by
        have := List.count_cons_self sid rest
        omega
      have hnotin : sid ∉ rest := by
        rw [← List.count_pos_iff]
        omega
      have hgetf := cacheGet_of_lookup_none now sid st hfc
      have hallow := allowRequest_closed cfg now b hb
      have hle : ¬ cfg.failureThreshold ≤ b.consecutiveFailures + 1 := by omega
      have hrf : CircuitBreaker.recordFailure cfg now b
          = ⟨.closed, 1, b.openedAt⟩ := by
        obtain ⟨bs, bcf, boa⟩ := b
        simp only at hb hb0
        subst hb
        subst hb0
        simp [CircuitBreaker.recordFailure, hle]
      have hokr : ∀ id ∈ rest, ∃ s, up id = .ok s := by
        intro id hid
        refine hok id (List.mem_cons_of_mem sid hid) ?_
        intro heq
        exact hnotin (heq ▸ hid)
      obtain ⟨rs, st', b', hrec, hlen⟩ :=
        processBulk_all_ok cfg d now up rest
          { st with misses := st.misses + 1 } ⟨.closed, 1, b.openedAt⟩ rfl hokr
      refine ⟨rs, st', b', ?_, by simp [hlen]⟩
      simp [processBulk, hgetf, hallow, hup, hrf, hrec]
    · have hfs : fid ≠ sid := fun h => hsid h.symm
      have hcount' : rest.count fid = 1 := by
        rwa [List.count_cons_of_ne hfs] at hcount
      have hokr : ∀ id ∈ rest, id ≠ fid → ∃ s, up id = .ok s :=
        fun id hid hne => hok id (List.mem_cons_of_mem sid hid) hne
      obtain ⟨sv, hsv⟩ := hok sid (List.mem_cons_self sid rest) hsid
      rcases hget : Cache.get now sid st with ⟨o, st1⟩
      have hfid1 : mapLookup fid st1.store = none := by
        have := cacheGet_preserves_none now fid sid st hfc
        rwa [hget] at this
      cases o with
      | some v =>
        obtain ⟨rs, st', b', hrec, hlen⟩ := ih st1 b hb hb0 hcount' hfid1 hokr
        refine ⟨v :: rs, st', b', ?_, by simp only [List.length_cons]; omega⟩
        simp [processBulk, hget, hrec]
      | none =>
        have hallow := allowRequest_closed cfg now b hb
        have hfid2 : mapLookup fid (Cache.set now sid sv none d st1).store = none := by
          simp only [Cache.set]
          rw [mapLookup_mapSet_ne fid sid _ hsid st1.store]
          exact hfid1
        obtain ⟨rs, st', b', hrec, hlen⟩ :=
          ih (Cache.set now sid sv none d st1) ⟨.closed, 0, none⟩ rfl rfl
            hcount' hfid2 hokr
        refine ⟨sv :: rs, st', b', ?_, by simp only [List.length_cons]; omega⟩
        simp [processBulk, hget, hallow, hsv, CircuitBreaker.recordSuccess, hrec]

end VaultBridge

namespace VaultBridge

/-- Counterexample to claim C4 as stated: with `failureThreshold = 1`, two
valid identifiers and an upstream that fails only for the first of them (and
would succeed for the second), the first failure trips the breaker mid-batch
and the second item is breaker-denied without an upstream call — so the 200
response carries 0 successes and 2 failure records, not `N − 1 = 1`
successes and 1 failure. -/
theorem bulk_one_failure_cex :
    upFail1 u1 = .error ⟨"boom".toList, []⟩ ∧
    upFail1 u2 = .ok ⟨u2, "k", "v"⟩ ∧
    (handleBulk ⟨1, 30000⟩ 60 1000 true [u1, u2] upFail1 ⟨[], 0, 0⟩ initialBreaker).1.status = 200 ∧
    (handleBulk ⟨1, 30000⟩ 60 1000 true [u1, u2] upFail1 ⟨[], 0, 0⟩ initialBreaker).1.secrets.length = 0 ∧
    (handleBulk ⟨1, 30000⟩ 60 1000 true [u1, u2] upFail1 ⟨[], 0, 0⟩ initialBreaker).1.errors.length = 2 := by
  refine ⟨by decide, by decide, by decide, by decide, by decide⟩

/-- Claim C4 as amended: for a ready session and a validated list of N
identifiers (non-empty, within the bulk maximum, all UUID v4) containing the
failing identifier exactly once and with that identifier not cached, where
the upstream call fails for exactly that identifier and succeeds for every
other, the response is a 200 with `N − 1` successes and exactly one failure
record naming the failing identifier — regardless of its position —
**provided** the single failure cannot trip the breaker: the breaker starts
closed with no accumulated failures and `failureThreshold ≥ 2`. -/
theorem bulk_one_failure (cfg : BreakerConfig) (d now : Nat) (ids : List String)
    (fid : String) (err : JsError) (up : String → Except JsError Secret)
    (st : CacheState Secret) (b : BreakerState)
    (hb : b.state = .closed) (hb0 : b.consecutiveFailures = 0)
    (hthr : 2 ≤ cfg.failureThreshold)
    (hne : ids ≠ []) (hlen : ids.length ≤ MAX_BULK_IDS)
    (hvalid : ∀ id ∈ ids, isUuidV4 id = true)
    (hcount : ids.count fid = 1)
    (hfc : mapLookup fid st.store = none)
    (hup : up fid = .error err)
    (hok : ∀ id ∈ ids, id ≠ fid → ∃ s, up id = .ok s) :
    (handleBulk cfg d now true ids up st b).1.status = 200 ∧
    (handleBulk cfg d now true ids up st b).1.secrets.length + 1 = ids.length ∧
    (handleBulk cfg d now true ids up st b).1.errors
      = [⟨fid, (classifyError err).statusCode, (classifyError err).message⟩] := by
  obtain ⟨rs, st', b', hrec, hreclen⟩ :=
    processBulk_single_failure cfg d now up fid err hup hthr ids st b hb hb0
      hcount hfc hok
  have hempty : ids.isEmpty = false := by
    cases ids with
    | nil => exact absurd rfl hne
    | cons a l => rfl
  have hmax : ¬ ids.length > MAX_BULK_IDS := by omega
  have hfilter : (ids.filter fun id => !(isUuidV4 id)) = [] := by
    rw [List.filter_eq_nil_iff]
    intro a ha
    simp [hvalid a ha]
  have hbulk : handleBulk cfg d now true ids up st b
      = (⟨200, rs, [⟨fid, (classifyError err).statusCode, (classifyError err).message⟩], [], none⟩, st', b') := by
    simp [handleBulk, hempty, hmax, hfilter, hrec]
  rw [hbulk]
  exact ⟨rfl, by simpa using hreclen, rfl⟩

/-- Witness for `bulk_one_failure`: three valid UUIDs with the middle one
failing upstream yields two successes and one failure record naming it. -/
theorem bulk_one_failure_witness :
    ((initialBreaker.state = .closed) ∧
      (initialBreaker.consecutiveFailures = 0) ∧
      (2 ≤ (5 : Nat)) ∧
      ([u1, u2, u3] ≠ ([] : List String)) ∧
      ([u1, u2, u3].length ≤ MAX_BULK_IDS) ∧
      (∀ id ∈ [u1, u2, u3], isUuidV4 id = true) ∧
      ([u1, u2, u3].count u2 = 1) ∧
      (mapLookup u2 (⟨[], 0, 0⟩ : CacheState Secret).store = none) ∧
      (upFailMid u2 = .error ⟨"boom".toList, []⟩)) ∧
    ((handleBulk ⟨5, 30000⟩ 60 1000 true [u1, u2, u3] upFailMid ⟨[], 0, 0⟩ initialBreaker).1.status = 200 ∧
      (handleBulk ⟨5, 30000⟩ 60 1000 true [u1, u2, u3] upFailMid ⟨[], 0, 0⟩ initialBreaker).1.secrets.length + 1 = [u1, u2, u3].length ∧
      (handleBulk ⟨5, 30000⟩ 60 1000 true [u1, u2, u3] upFailMid ⟨[], 0, 0⟩ initialBreaker).1.errors
        = [⟨u2, (classifyError ⟨"boom".toList, []⟩).statusCode, (classifyError ⟨"boom".toList, []⟩).message⟩]) :=
  ⟨⟨rfl, rfl, by decide, by decide, by decide, by decide, by decide, rfl, by decide⟩,
    bulk_one_failure ⟨5, 30000⟩ 60 1000 [u1, u2, u3] u2 ⟨"boom".toList, []⟩ upFailMid
      ⟨[], 0, 0⟩ initialBreaker rfl rfl (by decide) (by decide) (by decide)
      (by decide) (by decide) rfl (by decide)
      (by
        intro id hid hne2
        refine ⟨⟨id, "k", "v"⟩, ?_⟩
        simp [upFailMid, hne2])⟩

end VaultBridge
